import Mathlib

/-!
Verification of the Progression & Reward Engine and token-revocation subsystem
of the `api-gamification-finances` backend, against its natural-language spec.

Each definition is a shallow embedding of a source function:
JavaScript numbers used as counters are modelled as `Int`, thrown errors as
`Except`, Mongoose document mutation as explicit state passing, and the
ordered sequence of repository calls a service makes as an explicit event list.
-/

namespace Gamification

/-! ## WalletLedger — `src/models/UserWallet.ts` (unnamed/part_020)

`coins`, `totalEarned`, `totalSpent` are the schema fields; the instance
methods `addCoins`, `canAfford`, `spendCoins` mutate the document in place,
modelled here as functions from a `WalletState` to an updated `WalletState`
(or a thrown error). -/

structure WalletState where
  coins : Int
  totalEarned : Int
  totalSpent : Int
  deriving Repr, DecidableEq

inductive WalletError
  /-- `throw new Error('Amount must be positive')` -/
  | amountMustBePositive
  /-- `throw new Error('Insufficient coins')` -/
  | insufficientCoins
  deriving Repr, DecidableEq

/-- `userWalletSchema.methods.addCoins`: rejects `amount <= 0`, otherwise
increments `coins` and `totalEarned` and returns the new balance. -/
def addCoins (w : WalletState) (amount : Int) : Except WalletError (WalletState × Int) :=
  if amount ≤ 0 then
    .error .amountMustBePositive
  else
    let w' : WalletState :=
      { w with coins := w.coins + amount, totalEarned := w.totalEarned + amount }
    .ok (w', w'.coins)

/-- `userWalletSchema.methods.canAfford`: `this.coins >= cost`. -/
def canAfford (w : WalletState) (cost : Int) : Bool :=
  w.coins ≥ cost

/-- `userWalletSchema.methods.spendCoins`: rejects `amount <= 0`, then rejects
when `!this.canAfford(amount)`, otherwise decrements `coins` and increments
`totalSpent`, returning the new balance. -/
def spendCoins (w : WalletState) (amount : Int) : Except WalletError (WalletState × Int) :=
  if amount ≤ 0 then
    .error .amountMustBePositive
  else if ¬ canAfford w amount then
    .error .insufficientCoins
  else
    let w' : WalletState :=
      { w with coins := w.coins - amount, totalSpent := w.totalSpent + amount }
    .ok (w', w'.coins)

/-- `UserWalletRepository.createForUser(userId, initialCoins)`
(`src/repositories/budget.repository.ts`): a new wallet document with
`coins = totalEarned = initialCoins`, `totalSpent = 0`. -/
def createForUser (initialCoins : Int) : WalletState :=
  { coins := initialCoins, totalEarned := initialCoins, totalSpent := 0 }

/-- Registration (`AuthService.register`) calls
`userWalletRepository.createForUser(userId, 0)`. -/
def registrationWallet : WalletState := createForUser 0

/-- One wallet call in a sequence: either an `addCoins` or a `spendCoins`
request with some amount. -/
inductive WalletOp
  | add (amount : Int)
  | spend (amount : Int)
  deriving Repr, DecidableEq

/-- The state after one call: a call that throws leaves the document
unmodified (the mutation happens only on the success path, before `save`). -/
def applyWalletOp (w : WalletState) (op : WalletOp) : WalletState :=
  match op with
  | .add a =>
    match addCoins w a with
    | .ok (w', _) => w'
    | .error _ => w
  | .spend a =>
    match spendCoins w a with
    | .ok (w', _) => w'
    | .error _ => w

/-- The wallet state after a sequence of calls. -/
def runWalletOps (w : WalletState) (ops : List WalletOp) : WalletState :=
  ops.foldl applyWalletOp w

/-- The wallet invariant of the spec: `coins == totalEarned - totalSpent`
and `coins` never negative. -/
def WalletInv (w : WalletState) : Prop :=
  w.coins = w.totalEarned - w.totalSpent ∧ 0 ≤ w.coins

instance (w : WalletState) : Decidable (WalletInv w) := by
  unfold WalletInv; infer_instance

/-! ## ExperienceLedger — `src/models/UserProgress.ts`

`addExperience` is the instance method on the `UserProgress` document.
`Math.round(x)` on a non-negative rational `num/den` is `⌊num/den + 1/2⌋`,
i.e. `⌊(2*num + den) / (2*den)⌋`, written with flooring integer division. -/

/-- JavaScript `Math.round(num / den)` for `den > 0` (round half up). -/
def mathRound (num den : Int) : Int :=
  Int.fdiv (2 * num + den) (2 * den)

structure ProgressState where
  level : Int
  experience : Int
  experienceToNextLevel : Int
  levelProgress : Int
  deriving Repr, DecidableEq

/-- The return value of `addExperience`: `newLevel` is present only on the
level-up branch of the source. -/
structure ExperienceResult where
  leveledUp : Bool
  newLevel : Option Int
  experienceGained : Int
  deriving Repr, DecidableEq

inductive ProgressError
  /-- `throw new Error('Experience amount must be positive')` -/
  | experienceAmountMustBePositive
  deriving Repr, DecidableEq

/-- `userProgressSchema.methods.addExperience`: rejects `amount <= 0`; adds
the amount; computes `experienceForNextLevel = level * 100`; then a single
`if` (not a loop) either performs one level-up with carry-over of the excess
experience, or records progress toward the next level.
`levelProgress = Math.round((experience / experienceToNextLevel) * 100)`. -/
def addExperience (p : ProgressState) (amount : Int) :
    Except ProgressError (ProgressState × ExperienceResult) :=
  if amount ≤ 0 then
    .error .experienceAmountMustBePositive
  else
    let experience := p.experience + amount
    let experienceForNextLevel := p.level * 100
    if experience ≥ experienceForNextLevel then
      let level := p.level + 1
      let experience' := experience - experienceForNextLevel
      let experienceToNextLevel := level * 100
      .ok ({ level := level, experience := experience',
             experienceToNextLevel := experienceToNextLevel,
             levelProgress := mathRound (100 * experience') experienceToNextLevel },
           { leveledUp := true, newLevel := some level, experienceGained := amount })
    else
      .ok ({ level := p.level, experience := experience,
             experienceToNextLevel := experienceForNextLevel,
             levelProgress := mathRound (100 * experience) experienceForNextLevel },
           { leveledUp := false, newLevel := none, experienceGained := amount })

/-- `UserProgressRepository.createForUser`: level 1, experience 0,
experienceToNextLevel 100, levelProgress 0 (unnamed/part_006). -/
def registrationProgress : ProgressState :=
  { level := 1, experience := 0, experienceToNextLevel := 100, levelProgress := 0 }

/-! ## UnlockRegistry and RewardCoordinator —
`AchievementService.unlockAchievement` (unnamed/part_010) and
`BadgeService.awardBadgeToUser` (`src/config/database.ts`)

The per-user durable state the two grant flows touch is gathered in a
`GrantWorld`; the repository calls a flow performs, in the order it performs
them, are recorded as a `GrantEvent` list (the trace). Ids are the string
forms the source compares with `toString()` equality. -/

/-- An achievement document: the fields `unlockAchievement` reads
(`isActive`, `reward.experience`, `reward.coins`). -/
structure Achievement where
  id : String
  isActive : Bool
  rewardExperience : Int
  rewardCoins : Int
  deriving Repr, DecidableEq

/-- Badge rarity enum (`src/models/Badge.ts`). -/
inductive Rarity
  | common | rare | epic | legendary | unique
  deriving Repr, DecidableEq

/-- A badge document: the fields `awardBadgeToUser` reads. -/
structure Badge where
  id : String
  isActive : Bool
  rarity : Rarity
  deriving Repr, DecidableEq

/-- The `switch (badge.rarity)` coin payout table in `awardBadgeToUser`. -/
def rarityCoins : Rarity → Int
  | .common => 10
  | .rare => 25
  | .epic => 50
  | .legendary => 100
  | .unique => 250

/-- The `switch (badge.rarity)` experience payout table in
`awardBadgeToUser`. -/
def rarityExperience : Rarity → Int
  | .common => 20
  | .rare => 50
  | .epic => 100
  | .legendary => 200
  | .unique => 500

/-- The durable per-user state the grant flows read and write: the
`UserProgress` document (level/experience plus its unlocked achievement and
badge id arrays) and the `UserWallet` document. -/
structure GrantWorld where
  progress : ProgressState
  unlockedAchievements : List String
  unlockedBadges : List String
  wallet : WalletState
  deriving Repr, DecidableEq

/-- One persistence call made during a grant, in call order. -/
inductive GrantEvent
  /-- `userProgressRepository.unlockAchievement` / `.addBadge` persisted the
  unlock record for this reward id. -/
  | unlockRecord (rewardId : String)
  /-- a `userProgressRepository.addExperience` call began with this amount. -/
  | addExperienceCall (amount : Int)
  /-- a `userWalletRepository.addCoins` call began with this amount. -/
  | addCoinsCall (amount : Int)
  deriving Repr, DecidableEq

inductive GrantError
  /-- `throw new Error('User not found')` -/
  | userNotFound
  /-- `throw new Error('Achievement not found')` -/
  | achievementNotFound
  /-- `throw new Error('This achievement is not available')` -/
  | achievementNotAvailable
  /-- `throw new Error('Achievement already unlocked')` -/
  | achievementAlreadyUnlocked
  /-- `throw new Error('Badge not found')` -/
  | badgeNotFound
  /-- `throw new Error('Badge is not active')` -/
  | badgeNotActive
  /-- `throw new Error('User already has this badge')` -/
  | userAlreadyHasBadge
  /-- an error thrown by a payout step (`addCoins` / `addExperience`)
  propagating out of the flow after the unlock was recorded. -/
  | payoutFailed
  deriving Repr, DecidableEq

/-- `userProgressSchema.methods.hasAchievement` (backing
`userProgressRepository.hasAchievement`): membership by string equality of
ids. -/
def hasAchievement (unlocked : List String) (achievementId : String) : Bool :=
  unlocked.any (fun id => id == achievementId)

/-- The fields of the `UnlockAchievementResponseDto` the service builds that
carry state (the `rewards` block and the `userStats` block). -/
structure UnlockResponse where
  rewardExperience : Int
  rewardCoins : Int
  level : Int
  experience : Int
  coins : Int
  totalAchievements : Int
  deriving Repr, DecidableEq

/-- `AchievementService.unlockAchievement(userId, achievementId)`:
look up the user, look up the achievement, reject if inactive or already
unlocked; otherwise persist the unlock record, then pay out
`reward.experience` via `addExperience` and `reward.coins` via `addCoins`.
Returns the result together with the ordered trace of persistence calls. -/
def unlockAchievement (users : List String) (catalog : List Achievement)
    (w : GrantWorld) (userId achievementId : String) :
    Except GrantError (GrantWorld × UnlockResponse) × List GrantEvent :=
  if ¬ users.contains userId then (.error .userNotFound, [])
  else
    match catalog.find? (fun a => a.id == achievementId) with
    | none => (.error .achievementNotFound, [])
    | some achievement =>
      if ¬ achievement.isActive then (.error .achievementNotAvailable, [])
      else if hasAchievement w.unlockedAchievements achievement.id then
        (.error .achievementAlreadyUnlocked, [])
      else
        let w1 : GrantWorld :=
          { w with unlockedAchievements := w.unlockedAchievements ++ [achievement.id] }
        match addExperience w1.progress achievement.rewardExperience with
        | .error _ =>
          (.error .payoutFailed,
           [.unlockRecord achievement.id,
            .addExperienceCall achievement.rewardExperience])
        | .ok (progress', _) =>
          let w2 : GrantWorld := { w1 with progress := progress' }
          match addCoins w2.wallet achievement.rewardCoins with
          | .error _ =>
            (.error .payoutFailed,
             [.unlockRecord achievement.id,
              .addExperienceCall achievement.rewardExperience,
              .addCoinsCall achievement.rewardCoins])
          | .ok (wallet', _) =>
            let w3 : GrantWorld := { w2 with wallet := wallet' }
            (.ok (w3,
              { rewardExperience := achievement.rewardExperience,
                rewardCoins := achievement.rewardCoins,
                level := progress'.level,
                experience := progress'.experience,
                coins := wallet'.coins,
                totalAchievements := w3.unlockedAchievements.length }),
             [.unlockRecord achievement.id,
              .addExperienceCall achievement.rewardExperience,
              .addCoinsCall achievement.rewardCoins])

/-- `BadgeService.userHasBadge`: membership of the badge id in the user's
progress document. -/
def userHasBadge (w : GrantWorld) (badgeId : String) : Bool :=
  w.unlockedBadges.any (fun id => id == badgeId)

/-- The return value of `awardBadgeToUser`. -/
structure AwardBadgeResponse where
  badge : Badge
  coinsAwarded : Int
  experienceAwarded : Int
  deriving Repr, DecidableEq

/-- `BadgeService.awardBadgeToUser(userId, badgeId)`: look up the badge,
reject if inactive or already owned; otherwise persist the badge via
`addBadge`, compute the rarity payout, then `addCoins` then `addExperience`.
Returns the result together with the ordered trace of persistence calls. -/
def awardBadgeToUser (badges : List Badge) (w : GrantWorld)
    (badgeId : String) :
    Except GrantError (GrantWorld × AwardBadgeResponse) × List GrantEvent :=
  match badges.find? (fun b => b.id == badgeId) with
  | none => (.error .badgeNotFound, [])
  | some badge =>
    if ¬ badge.isActive then (.error .badgeNotActive, [])
    else if userHasBadge w badgeId then (.error .userAlreadyHasBadge, [])
    else
      let w1 : GrantWorld :=
        { w with unlockedBadges := w.unlockedBadges ++ [badgeId] }
      let coinsAwarded := rarityCoins badge.rarity
      let experienceAwarded := rarityExperience badge.rarity
      match addCoins w1.wallet coinsAwarded with
      | .error _ =>
        (.error .payoutFailed,
         [.unlockRecord badgeId, .addCoinsCall coinsAwarded])
      | .ok (wallet', _) =>
        let w2 : GrantWorld := { w1 with wallet := wallet' }
        match addExperience w2.progress experienceAwarded with
        | .error _ =>
          (.error .payoutFailed,
           [.unlockRecord badgeId, .addCoinsCall coinsAwarded,
            .addExperienceCall experienceAwarded])
        | .ok (progress', _) =>
          let w3 : GrantWorld := { w2 with progress := progress' }
          (.ok (w3,
            { badge := badge, coinsAwarded := coinsAwarded,
              experienceAwarded := experienceAwarded }),
           [.unlockRecord badgeId, .addCoinsCall coinsAwarded,
            .addExperienceCall experienceAwarded])

/-- A payout persistence call (wallet credit or experience credit). -/
def isPayoutEvent : GrantEvent → Bool
  | .unlockRecord _ => false
  | .addExperienceCall _ => true
  | .addCoinsCall _ => true

/-- In a trace, every payout call is preceded by some persisted unlock
record. -/
def UnlockBeforePayout (trace : List GrantEvent) : Prop :=
  ∀ i : Fin trace.length, isPayoutEvent (trace.get i) = true →
    ∃ j : Fin trace.length, j.val < i.val ∧
      ∃ rewardId, trace.get j = .unlockRecord rewardId

end Gamification

namespace Auth

/-! ## TokenRevocationStore and SessionGuard —
`src/models/BlacklistedToken.ts`, `tokenUtils` (unnamed/part_007),
`AuthService.logout` (unnamed/part_013), `authenticateJWT` (unnamed/part_004)

A JWT is modelled by its raw string (the blacklist key) together with the
result of `jwt.decode` on it; signature verification (`jwt.verify`) is the
external collaborator and is passed in as a function. -/

/-- The decoded JWT payload (`TokenPayload` in tokenUtils): `exp` is the
expiry claim in seconds, absent when the claim is missing; `id` is the
user id claim. -/
structure TokenPayload where
  id : String
  exp : Option Int
  deriving Repr, DecidableEq

/-- A bearer token: its raw string and what `jwt.decode` returns for it
(`none` when decoding fails). -/
structure Token where
  raw : String
  decoded : Option TokenPayload
  deriving Repr, DecidableEq

/-- `decodeToken`: `jwt.decode` without verification. -/
def decodeToken (t : Token) : Option TokenPayload :=
  t.decoded

/-- `getTokenExpiration`: `null` when the token does not decode or when
`!decoded.exp` (so also for the falsy claim value 0); otherwise
`new Date(decoded.exp * 1000)`, modelled as milliseconds since the epoch. -/
def getTokenExpiration (t : Token) : Option Int :=
  match decodeToken t with
  | none => none
  | some decoded =>
    match decoded.exp with
    | none => none
    | some e => if e == 0 then none else some (e * 1000)

/-- A `BlacklistedToken` document: `(token, userId, expiresAt)`. -/
structure BlacklistRecord where
  token : String
  userId : String
  expiresAt : Int
  deriving Repr, DecidableEq

/-- `BlacklistedToken.isBlacklisted(token)`: `this.exists({ token })` — a
match on the raw token string only, with no condition on `expiresAt`. -/
def isBlacklisted (store : List BlacklistRecord) (token : String) : Bool :=
  store.any (fun r => r.token == token)

/-- `BlacklistedToken.cleanExpiredTokens()`: `deleteMany` of the records
with `expiresAt < now` (what the TTL index also does in the background). -/
def cleanExpiredTokens (store : List BlacklistRecord) (now : Int) :
    List BlacklistRecord :=
  store.filter (fun r => !(r.expiresAt < now))

inductive TokenError
  /-- `throw new Error('Invalid token')` -/
  | invalidToken
  /-- `throw new Error('Token is already invalidated')` -/
  | tokenAlreadyInvalidated
  deriving Repr, DecidableEq

/-- `blacklistToken(token, userId)` (tokenUtils): extracts the expiry from
the token's own claim, throws 'Invalid token' when absent, otherwise stores
`(token, userId, expiration)`. -/
def blacklistToken (store : List BlacklistRecord) (t : Token)
    (userId : String) : Except TokenError (List BlacklistRecord) :=
  match getTokenExpiration t with
  | none => .error .invalidToken
  | some expiration => .ok (store ++ [⟨t.raw, userId, expiration⟩])

/-- `AuthService.logout(token, userId)`: rejects with 'Token is already
invalidated' when the token is already blacklisted, otherwise blacklists
it. -/
def logout (store : List BlacklistRecord) (t : Token) (userId : String) :
    Except TokenError (List BlacklistRecord) :=
  if isBlacklisted store t.raw then .error .tokenAlreadyInvalidated
  else blacklistToken store t userId

/-- What `authenticateJWT` does with the request: rejects with an HTTP
status and message, or calls `next()` with the decoded payload stored on
`req.user`. -/
inductive AuthOutcome
  | rejected (status : Int) (message : String)
  | authenticated (user : TokenPayload)
  deriving Repr, DecidableEq

/-- `authHeader.startsWith('Bearer ')`, as a prefix test on the header's
character list. -/
def startsWithBearer (authHeader : String) : Bool :=
  "Bearer ".toList.isPrefixOf authHeader.toList

/-- `authHeader.split(' ')`, as a split of the header's character list on
the space character. -/
def splitHeader (authHeader : String) : List String :=
  (authHeader.toList.splitOn ' ').map List.asString

/-- `authHeader.split(' ')[1]`; the source casts the element `as string`. -/
def bearerToken (authHeader : String) : String :=
  (splitHeader authHeader).getD 1 ""

/-- `authenticateJWT` (unnamed/part_004): missing or non-`Bearer ` header →
401 'Unauthorized'; blacklisted token → 401 'Token has been revoked';
`jwt.verify` failure → 401 'Invalid token'; otherwise the decoded payload is
exposed as `req.user` and the handler runs. `verify` is the external
`jwt.verify(token, JWT_SECRET)`, `none` when it throws. -/
def authenticateJWT (store : List BlacklistRecord)
    (verify : String → Option TokenPayload) (authHeader : Option String) :
    AuthOutcome :=
  match authHeader with
  | none => .rejected 401 "Unauthorized"
  | some h =>
    if ¬ startsWithBearer h then .rejected 401 "Unauthorized"
    else
      let token := bearerToken h
      if isBlacklisted store token then .rejected 401 "Token has been revoked"
      else
        match verify token with
        | none => .rejected 401 "Invalid token"
        | some decoded => .authenticated decoded

end Auth

namespace Gamification

/-! Concrete fixtures used to instantiate the theorems below. -/

def demoUsers : List String := ["u1"]

def demoAchievement : Achievement :=
  { id := "a1", isActive := true, rewardExperience := 20, rewardCoins := 10 }

def demoCatalog : List Achievement := [demoAchievement]

def demoBadge : Badge := { id := "b1", isActive := true, rarity := .common }

def demoBadges : List Badge := [demoBadge]

/-- A freshly registered user's world: registration progress, no unlocks,
registration wallet. -/
def demoWorld : GrantWorld :=
  { progress := registrationProgress, unlockedAchievements := [],
    unlockedBadges := [], wallet := registrationWallet }

/-- `demoWorld` after `demoAchievement` is granted once: 20 experience,
the achievement id recorded, 10 coins. -/
def demoWorldAfter : GrantWorld :=
  { progress := { level := 1, experience := 20, experienceToNextLevel := 100,
                  levelProgress := 20 },
    unlockedAchievements := ["a1"], unlockedBadges := [],
    wallet := { coins := 10, totalEarned := 10, totalSpent := 0 } }

/-- The response of the first demo grant: 20 experience and 10 coins paid,
user at level 1 with 20 experience, 10 coins, 1 achievement. -/
def demoResponse : UnlockResponse :=
  { rewardExperience := 20, rewardCoins := 10, level := 1, experience := 20,
    coins := 10, totalAchievements := 1 }

end Gamification

namespace Auth

/-! Concrete fixtures used to instantiate the theorems below. -/

/-- A decodable token with expiry claim 45 (seconds). -/
def demoToken : Token :=
  { raw := "tok", decoded := some { id := "u1", exp := some 45 } }

/-- A decodable token whose expiry claim is absent. -/
def demoMalformedToken : Token :=
  { raw := "tok2", decoded := some { id := "u1", exp := none } }

/-- A blacklist holding one record for "tok" that expired at instant 5. -/
def demoStore : List BlacklistRecord :=
  [{ token := "tok", userId := "u1", expiresAt := 5 }]

/-- A signature verifier that accepts "tok" (still cryptographically
valid). -/
def demoVerify : String → Option TokenPayload :=
  fun s => if s == "tok" then some { id := "u1", exp := some 45 } else none

end Auth

namespace Gamification

theorem walletInv_applyWalletOp (w : WalletState) (op : WalletOp)
    (h : WalletInv w) : WalletInv (applyWalletOp w op) := by
  obtain ⟨hbal, hpos⟩ := h
  unfold WalletInv
  cases op with
  | add a =>
    by_cases ha : a ≤ 0 <;> simp [applyWalletOp, addCoins, ha] <;> omega
  | spend a =>
    by_cases ha : a ≤ 0
    · simp [applyWalletOp, spendCoins, ha]; omega
    · by_cases haff : canAfford w a
      · have haff' : w.coins ≥ a := by simpa [canAfford] using haff
        simp [applyWalletOp, spendCoins, ha, haff]
        omega
      · simp [applyWalletOp, spendCoins, ha, haff]; omega

theorem walletInv_runWalletOps (w : WalletState) (ops : List WalletOp)
    (h : WalletInv w) : WalletInv (runWalletOps w ops) := by
  induction ops generalizing w with
  | nil => exact h
  | cons op rest ih =>
    exact ih (applyWalletOp w op) (walletInv_applyWalletOp w op h)

/-- The empty trace trivially satisfies the ordering property. -/
theorem unlockBeforePayout_nil : UnlockBeforePayout [] := by
  intro i
  exact absurd i.isLt (by simp)

/-- A trace that opens with a persisted unlock record satisfies the ordering
property: the record at index 0 precedes every payout call. -/
theorem unlockBeforePayout_cons (rewardId : String)
    (rest : List GrantEvent) :
    UnlockBeforePayout (GrantEvent.unlockRecord rewardId :: rest) := by
  intro i hi
  have hlen : 0 < (GrantEvent.unlockRecord rewardId :: rest).length := by
    simp
  refine ⟨⟨0, hlen⟩, ?_, rewardId, rfl⟩
  rcases Nat.eq_zero_or_pos i.val with h0 | hpos
  · exfalso
    have hzero : i = ⟨0, hlen⟩ := Fin.ext h0
    rw [hzero] at hi
    simp [List.get, isPayoutEvent] at hi
  · exact hpos

end Gamification

/-- C3: For every sequence of `addCoins`/`spendCoins` calls on a wallet
created at registration with all fields 0, after every call (i.e. after every
prefix of the sequence, each prefix being itself such a sequence) the
equation `coins == totalEarned - totalSpent` holds and `coins` is never
negative. -/
theorem C3_wallet_invariant (ops : List Gamification.WalletOp) :
    Gamification.WalletInv
      (Gamification.runWalletOps Gamification.registrationWallet ops) := by
  apply Gamification.walletInv_runWalletOps
  constructor <;> simp [Gamification.registrationWallet, Gamification.createForUser]

/-- C6: For every wallet with a non-negative balance and every amount strictly
greater than that balance, `spendCoins` fails with the insufficient-funds
error and the wallet state is unchanged by the call. -/
theorem C6_spend_insufficient (w : Gamification.WalletState) (amount : Int)
    (hw : 0 ≤ w.coins) (hgt : w.coins < amount) :
    Gamification.spendCoins w amount = .error .insufficientCoins ∧
      Gamification.applyWalletOp w (.spend amount) = w := by
  have hpos : ¬ amount ≤ 0 := by omega
  have haff : ¬ Gamification.canAfford w amount := by
    simp [Gamification.canAfford]; omega
  constructor
  · simp [Gamification.spendCoins, hpos, haff]
  · simp [Gamification.applyWalletOp, Gamification.spendCoins, hpos, haff]

/-- Witness for C6: the spec scenario, a wallet with balance 30 spending 50. -/
theorem C6_spend_insufficient_witness :
    Gamification.spendCoins ⟨30, 30, 0⟩ 50 = .error .insufficientCoins ∧
      Gamification.applyWalletOp ⟨30, 30, 0⟩ (.spend 50) = ⟨30, 30, 0⟩ :=
  C6_spend_insufficient ⟨30, 30, 0⟩ 50 (by decide) (by decide)

/-- C10: `spendCoins` with a non-positive amount fails with the
'Amount must be positive' error before any mutation: the wallet state is
unchanged by the call. -/
theorem C10_spend_nonpositive (w : Gamification.WalletState) (amount : Int)
    (hle : amount ≤ 0) :
    Gamification.spendCoins w amount = .error .amountMustBePositive ∧
      Gamification.applyWalletOp w (.spend amount) = w := by
  constructor
  · simp [Gamification.spendCoins, hle]
  · simp [Gamification.applyWalletOp, Gamification.spendCoins, hle]

/-- Witness for C10: spending 0 from a wallet with balance 30 is rejected
with the positivity error and mutates nothing. -/
theorem C10_spend_nonpositive_witness :
    Gamification.spendCoins ⟨30, 30, 0⟩ 0 = .error .amountMustBePositive ∧
      Gamification.applyWalletOp ⟨30, 30, 0⟩ (.spend 0) = ⟨30, 30, 0⟩ :=
  C10_spend_nonpositive ⟨30, 30, 0⟩ 0 (by decide)

/-- C2: the claimed invariant `experience < level * 100` does NOT survive the
code as written: the level-up step is a single `if`, not the claimed `while`,
so from the registration state a single `addExperience(350)` yields
`level = 2, experience = 250` with `250 ≥ 2 * 100`, and additionally sets
`levelProgress = 125`, above the `max: 100` bound the schema itself declares
for that field. This evaluates the embedded code at that failing input. -/
theorem C2_single_level_violates_invariant :
    Gamification.addExperience Gamification.registrationProgress 350 =
      .ok ({ level := 2, experience := 250, experienceToNextLevel := 200,
             levelProgress := 125 },
           { leveledUp := true, newLevel := some 2, experienceGained := 350 }) ∧
      ¬ ((250 : Int) < 2 * 100) ∧ ¬ ((125 : Int) ≤ 100) := by
  refine ⟨?_, by decide, by decide⟩
  rfl

/-- C5: in every execution of `AchievementService.unlockAchievement` or
`BadgeService.awardBadgeToUser`, every payout call (`addCoins` /
`addExperience`) in the trace of persistence calls is preceded by the
persisted unlock record: a payout is never applied before the unlock is
recorded. -/
theorem C5_unlock_persisted_before_payout :
    (∀ (users : List String) (catalog : List Gamification.Achievement)
        (w : Gamification.GrantWorld) (userId achievementId : String),
      Gamification.UnlockBeforePayout
        (Gamification.unlockAchievement users catalog w userId achievementId).2) ∧
    (∀ (badges : List Gamification.Badge) (w : Gamification.GrantWorld)
        (badgeId : String),
      Gamification.UnlockBeforePayout
        (Gamification.awardBadgeToUser badges w badgeId).2) := by
  constructor
  · intro users catalog w userId achievementId
    unfold Gamification.unlockAchievement
    repeat' split
    all_goals try dsimp only
    all_goals try repeat' split
    all_goals
      first
        | exact Gamification.unlockBeforePayout_nil
        | exact Gamification.unlockBeforePayout_cons _ _
  · intro badges w badgeId
    unfold Gamification.awardBadgeToUser
    repeat' split
    all_goals try dsimp only
    all_goals try repeat' split
    all_goals
      first
        | exact Gamification.unlockBeforePayout_nil
        | exact Gamification.unlockBeforePayout_cons _ _

/-- Witness for C5: the ordering property evaluated on the concrete
fresh-grant execution of the demo achievement. -/
theorem C5_unlock_persisted_before_payout_witness :
    Gamification.UnlockBeforePayout
      (Gamification.unlockAchievement Gamification.demoUsers
        Gamification.demoCatalog Gamification.demoWorld "u1" "a1").2 :=
  C5_unlock_persisted_before_payout.1 Gamification.demoUsers
    Gamification.demoCatalog Gamification.demoWorld "u1" "a1"

/-- C9: from `level = 1, experience = 90` (whatever the stored derived fields
`experienceToNextLevel` and `levelProgress` hold), `addExperience 50` returns
`leveledUp = true, newLevel = 2` and leaves the progress at
`level = 2, experience = 40`. -/
theorem C9_level_up_scenario (etnl lp : Int) :
    Gamification.addExperience
        { level := 1, experience := 90, experienceToNextLevel := etnl,
          levelProgress := lp } 50 =
      .ok ({ level := 2, experience := 40, experienceToNextLevel := 200,
             levelProgress := 20 },
           { leveledUp := true, newLevel := some 2, experienceGained := 50 }) := by
  rfl

namespace Gamification

theorem unlockAchievement_twice
    (users : List String) (catalog : List Achievement)
    (w w1 : GrantWorld) (userId achievementId : String)
    (a : Achievement) (r1 : UnlockResponse)
    (hfind : catalog.find? (fun x => x.id == achievementId) = some a)
    (hok : (unlockAchievement users catalog w userId achievementId).1 =
      .ok (w1, r1)) :
    r1.rewardCoins = a.rewardCoins ∧
    r1.rewardExperience = a.rewardExperience ∧
    unlockAchievement users catalog w1 userId achievementId =
      (.error .achievementAlreadyUnlocked, []) ∧
    w1.wallet.totalEarned = w.wallet.totalEarned + a.rewardCoins ∧
    w1.wallet.coins = w.wallet.coins + a.rewardCoins := by
  unfold unlockAchievement at hok ⊢
  rw [hfind] at hok ⊢
  by_cases hu : users.contains userId = true
  swap
  · rw [if_pos hu] at hok
    exact absurd hok (by simp)
  rw [if_neg (not_not_intro hu)] at hok ⊢
  try dsimp only at hok
  try dsimp only
  by_cases hact : a.isActive = true
  swap
  · rw [if_pos hact] at hok
    exact absurd hok (by simp)
  rw [if_neg (not_not_intro hact)] at hok ⊢
  by_cases hhas : hasAchievement w.unlockedAchievements a.id = true
  · rw [if_pos hhas] at hok
    exact absurd hok (by simp)
  rw [if_neg hhas] at hok
  try dsimp only at hok
  cases hxp : addExperience w.progress a.rewardExperience with
  | error e =>
    rw [hxp] at hok
    exact absurd hok (by simp)
  | ok pr =>
    obtain ⟨p', res⟩ := pr
    rw [hxp] at hok
    try dsimp only at hok
    cases hcn : addCoins w.wallet a.rewardCoins with
    | error e =>
      rw [hcn] at hok
      exact absurd hok (by simp)
    | ok prc =>
      obtain ⟨wal', bal⟩ := prc
      rw [hcn] at hok
      try dsimp only at hok
      have hcpos : ¬ a.rewardCoins ≤ 0 := by
        intro hle
        rw [addCoins, if_pos hle] at hcn
        exact Except.noConfusion hcn
      have hwal' : wal' =
          { coins := w.wallet.coins + a.rewardCoins,
            totalEarned := w.wallet.totalEarned + a.rewardCoins,
            totalSpent := w.wallet.totalSpent } := by
        rw [addCoins, if_neg hcpos] at hcn
        injection hcn with hpair
        injection hpair with hfst hsnd
        exact hfst.symm
      injection hok with hpair
      injection hpair with hwfst hrsnd
      subst hwfst
      subst hrsnd
      refine ⟨rfl, rfl, ?_, ?_, ?_⟩
      · have hhas2 : hasAchievement (w.unlockedAchievements ++ [a.id]) a.id = true := by
          simp [hasAchievement]
        rw [if_pos hhas2]
      · rw [hwal']
      · rw [hwal']

theorem awardBadgeToUser_twice
    (badges : List Badge) (w w1 : GrantWorld) (badgeId : String)
    (b : Badge) (r1 : AwardBadgeResponse)
    (hfind : badges.find? (fun x => x.id == badgeId) = some b)
    (hok : (awardBadgeToUser badges w badgeId).1 = .ok (w1, r1)) :
    r1.coinsAwarded = rarityCoins b.rarity ∧
    r1.experienceAwarded = rarityExperience b.rarity ∧
    awardBadgeToUser badges w1 badgeId = (.error .userAlreadyHasBadge, []) ∧
    w1.wallet.totalEarned = w.wallet.totalEarned + rarityCoins b.rarity ∧
    w1.wallet.coins = w.wallet.coins + rarityCoins b.rarity := by
  unfold awardBadgeToUser at hok ⊢
  rw [hfind] at hok ⊢
  try dsimp only at hok
  try dsimp only
  by_cases hact : b.isActive = true
  swap
  · rw [if_pos hact] at hok
    exact absurd hok (by simp)
  rw [if_neg (not_not_intro hact)] at hok ⊢
  by_cases hhas : userHasBadge w badgeId = true
  · rw [if_pos hhas] at hok
    exact absurd hok (by simp)
  rw [if_neg hhas] at hok
  try dsimp only at hok
  cases hcn : addCoins w.wallet (rarityCoins b.rarity) with
  | error e =>
    rw [hcn] at hok
    exact absurd hok (by simp)
  | ok prc =>
    obtain ⟨wal', bal⟩ := prc
    rw [hcn] at hok
    try dsimp only at hok
    cases hxp : addExperience w.progress (rarityExperience b.rarity) with
    | error e =>
      rw [hxp] at hok
      exact absurd hok (by simp)
    | ok pr =>
      obtain ⟨p', res⟩ := pr
      rw [hxp] at hok
      try dsimp only at hok
      have hcpos : ¬ rarityCoins b.rarity ≤ 0 := by
        cases hb : b.rarity <;> simp [rarityCoins]
      have hwal' : wal' =
          { coins := w.wallet.coins + rarityCoins b.rarity,
            totalEarned := w.wallet.totalEarned + rarityCoins b.rarity,
            totalSpent := w.wallet.totalSpent } := by
        rw [addCoins, if_neg hcpos] at hcn
        injection hcn with hpair
        injection hpair with hfst hsnd
        exact hfst.symm
      injection hok with hpair
      injection hpair with hwfst hrsnd
      subst hwfst
      subst hrsnd
      refine ⟨rfl, rfl, ?_, ?_, ?_⟩
      · have hhas2 : userHasBadge
            { progress := p', unlockedAchievements := w.unlockedAchievements,
              unlockedBadges := w.unlockedBadges ++ [badgeId], wallet := wal' }
            badgeId = true := by
          simp [userHasBadge]
        rw [if_pos hhas2]
      · rw [hwal']
      · rw [hwal']

end Gamification

/-- C1 counterexample: for the demo user who has not yet unlocked the demo
achievement, the first `unlockAchievement` call succeeds with one payout, but
the second call in sequence throws 'Achievement already unlocked' — it is an
error, not the claimed non-error `granted=false` no-op. -/
theorem C1_counterexample_second_call_throws :
    (Gamification.unlockAchievement Gamification.demoUsers
        Gamification.demoCatalog Gamification.demoWorld "u1" "a1").1 =
      .ok (Gamification.demoWorldAfter, Gamification.demoResponse) ∧
    (Gamification.unlockAchievement Gamification.demoUsers
        Gamification.demoCatalog Gamification.demoWorldAfter "u1" "a1").1 =
      .error .achievementAlreadyUnlocked :=
  ⟨rfl, rfl⟩

/-- C1 (amended): for every user who has not yet unlocked a given reward,
after a first `unlockAchievement` / `awardBadgeToUser` call that succeeds,
the second call in sequence fails with the 'already unlocked' error (an
exception, not a non-error `granted=false` result) and performs no
persistence call (its trace is empty), and the coins credited across both
calls equal exactly one payout's worth. -/
theorem C1_grant_twice_amended :
    (∀ (users : List String) (catalog : List Gamification.Achievement)
        (w w1 : Gamification.GrantWorld) (userId achievementId : String)
        (a : Gamification.Achievement) (r1 : Gamification.UnlockResponse),
      catalog.find? (fun x => x.id == achievementId) = some a →
      (Gamification.unlockAchievement users catalog w userId achievementId).1 =
        .ok (w1, r1) →
      r1.rewardCoins = a.rewardCoins ∧
      r1.rewardExperience = a.rewardExperience ∧
      Gamification.unlockAchievement users catalog w1 userId achievementId =
        (.error .achievementAlreadyUnlocked, []) ∧
      w1.wallet.totalEarned = w.wallet.totalEarned + a.rewardCoins ∧
      w1.wallet.coins = w.wallet.coins + a.rewardCoins) ∧
    (∀ (badges : List Gamification.Badge) (w w1 : Gamification.GrantWorld)
        (badgeId : String) (b : Gamification.Badge)
        (r1 : Gamification.AwardBadgeResponse),
      badges.find? (fun x => x.id == badgeId) = some b →
      (Gamification.awardBadgeToUser badges w badgeId).1 = .ok (w1, r1) →
      r1.coinsAwarded = Gamification.rarityCoins b.rarity ∧
      r1.experienceAwarded = Gamification.rarityExperience b.rarity ∧
      Gamification.awardBadgeToUser badges w1 badgeId =
        (.error .userAlreadyHasBadge, []) ∧
      w1.wallet.totalEarned =
        w.wallet.totalEarned + Gamification.rarityCoins b.rarity ∧
      w1.wallet.coins = w.wallet.coins + Gamification.rarityCoins b.rarity) :=
  ⟨fun users catalog w w1 userId achievementId a r1 hfind hok =>
    Gamification.unlockAchievement_twice users catalog w w1 userId
      achievementId a r1 hfind hok,
   fun badges w w1 badgeId b r1 hfind hok =>
    Gamification.awardBadgeToUser_twice badges w w1 badgeId b r1 hfind hok⟩

/-- Witness for C1 (amended), at the demo fixtures: first call pays 10 coins
and 20 experience once; the second call returns the 'already unlocked' error
with an empty trace; the wallet totals reflect exactly one payout. -/
theorem C1_grant_twice_amended_witness :
    Gamification.demoResponse.rewardCoins =
      Gamification.demoAchievement.rewardCoins ∧
    Gamification.demoResponse.rewardExperience =
      Gamification.demoAchievement.rewardExperience ∧
    Gamification.unlockAchievement Gamification.demoUsers
        Gamification.demoCatalog Gamification.demoWorldAfter "u1" "a1" =
      (.error .achievementAlreadyUnlocked, []) ∧
    Gamification.demoWorldAfter.wallet.totalEarned =
      Gamification.demoWorld.wallet.totalEarned +
        Gamification.demoAchievement.rewardCoins ∧
    Gamification.demoWorldAfter.wallet.coins =
      Gamification.demoWorld.wallet.coins +
        Gamification.demoAchievement.rewardCoins :=
  C1_grant_twice_amended.1 Gamification.demoUsers Gamification.demoCatalog
    Gamification.demoWorld Gamification.demoWorldAfter "u1" "a1"
    Gamification.demoAchievement Gamification.demoResponse rfl rfl

/-- C4 counterexample: a blacklist whose only record for "tok" expired at
instant 5 still answers `isBlacklisted = true` at any later observation time
(e.g. 10), because the check is `exists(\x7b token \x7d)` with no condition
on `expiresAt`; the claim says the check must return false after `expiresAt`
regardless of physical deletion. -/
theorem C4_counterexample_expired_record_counts :
    Auth.isBlacklisted Auth.demoStore "tok" = true ∧
    Auth.demoStore.all (fun r => r.expiresAt < 10) = true :=
  ⟨rfl, rfl⟩

/-- C4 (amended): `isBlacklisted` returns true exactly when a record with a
matching token string physically exists, regardless of its `expiresAt`; a
revoked token stops being reported only once the expired rows are physically
removed (by the TTL index / `cleanExpiredTokens`), after which the check
returns false when every matching record had expired. -/
theorem C4_isBlacklisted_amended :
    (∀ (store : List Auth.BlacklistRecord) (token : String),
      Auth.isBlacklisted store token = true ↔
        ∃ r ∈ store, r.token = token) ∧
    (∀ (store : List Auth.BlacklistRecord) (now : Int) (token : String),
      (∀ r ∈ store, r.token = token → r.expiresAt < now) →
      Auth.isBlacklisted (Auth.cleanExpiredTokens store now) token = false) := by
  constructor
  · intro store token
    simp [Auth.isBlacklisted, List.any_eq_true, beq_iff_eq]
  · intro store now token h
    rw [Bool.eq_false_iff]
    intro hany
    rw [Auth.isBlacklisted, List.any_eq_true] at hany
    obtain ⟨r, hr, htok⟩ := hany
    rw [Auth.cleanExpiredTokens, List.mem_filter] at hr
    obtain ⟨hrs, hexp⟩ := hr
    rw [beq_iff_eq] at htok
    have hlt := h r hrs htok
    simp only [Bool.not_eq_true', decide_eq_false_iff_not] at hexp
    exact hexp hlt

/-- Witness for C4 (amended): once the physical sweep at instant 10 removes
the expired demo record, the check for "tok" returns false. -/
theorem C4_isBlacklisted_amended_witness :
    Auth.isBlacklisted (Auth.cleanExpiredTokens Auth.demoStore 10) "tok" =
      false :=
  C4_isBlacklisted_amended.2 Auth.demoStore 10 "tok" (by decide)

/-- C7: `authenticateJWT` checks revocation before signature verification is
trusted: any request bearing a blacklisted token is rejected 401 'Token has
been revoked' whatever the verifier would say; and a decoded identity is
exposed to the handler only when the header parsed, the token was not
blacklisted, and the signature verified. -/
theorem C7_revocation_checked_before_signature :
    (∀ (store : List Auth.BlacklistRecord)
        (verify : String → Option Auth.TokenPayload) (h : String),
      Auth.startsWithBearer h = true →
      Auth.isBlacklisted store (Auth.bearerToken h) = true →
      Auth.authenticateJWT store verify (some h) =
        .rejected 401 "Token has been revoked") ∧
    (∀ (store : List Auth.BlacklistRecord)
        (verify : String → Option Auth.TokenPayload)
        (hdr : Option String) (user : Auth.TokenPayload),
      Auth.authenticateJWT store verify hdr = .authenticated user →
      ∃ h, hdr = some h ∧ Auth.startsWithBearer h = true ∧
        Auth.isBlacklisted store (Auth.bearerToken h) = false ∧
        verify (Auth.bearerToken h) = some user) := by
  constructor
  · intro store verify h hsw hbl
    simp only [Auth.authenticateJWT]
    rw [if_neg (not_not_intro hsw)]
    try dsimp only
    rw [if_pos hbl]
  · intro store verify hdr user hauth
    cases hdr with
    | none => exact absurd hauth (by simp [Auth.authenticateJWT])
    | some h =>
      simp only [Auth.authenticateJWT] at hauth
      by_cases hsw : Auth.startsWithBearer h = true
      swap
      · rw [if_pos hsw] at hauth
        exact absurd hauth (by simp)
      rw [if_neg (not_not_intro hsw)] at hauth
      try dsimp only at hauth
      by_cases hbl : Auth.isBlacklisted store (Auth.bearerToken h) = true
      · rw [if_pos hbl] at hauth
        exact absurd hauth (by simp)
      rw [if_neg hbl] at hauth
      cases hv : verify (Auth.bearerToken h) with
      | none =>
        rw [hv] at hauth
        exact absurd hauth (by simp)
      | some decoded =>
        rw [hv] at hauth
        injection hauth with hdec
        subst hdec
        exact ⟨h, rfl, hsw, Bool.eq_false_iff.mpr hbl, hv⟩

/-- Witness for C7: the revoked demo token "tok" is rejected 401 'Token has
been revoked' even though the demo verifier still accepts its signature. -/
theorem C7_revocation_checked_before_signature_witness :
    Auth.authenticateJWT Auth.demoStore Auth.demoVerify (some "Bearer tok") =
      .rejected 401 "Token has been revoked" :=
  C7_revocation_checked_before_signature.1 Auth.demoStore Auth.demoVerify
    "Bearer tok" rfl rfl

/-- C8: revocation fails with 'Invalid token' (storing no record) when the
token's expiry claim is absent or unparseable; and after a logout succeeds,
a second logout of the same token fails with 'Token is already invalidated',
the first call's stored record still present. -/
theorem C8_revoke_malformed_and_double :
    (∀ (store : List Auth.BlacklistRecord) (t : Auth.Token) (userId : String),
      Auth.getTokenExpiration t = none →
      Auth.blacklistToken store t userId = .error .invalidToken) ∧
    (∀ (store store' : List Auth.BlacklistRecord) (t : Auth.Token)
        (userId userId2 : String),
      Auth.logout store t userId = .ok store' →
      Auth.isBlacklisted store' t.raw = true ∧
      Auth.logout store' t userId2 = .error .tokenAlreadyInvalidated) := by
  constructor
  · intro store t userId hexp
    rw [Auth.blacklistToken, hexp]
  · intro store store' t userId userId2 hok
    unfold Auth.logout at hok
    by_cases hbl : Auth.isBlacklisted store t.raw = true
    · rw [if_pos hbl] at hok
      exact absurd hok (by simp)
    rw [if_neg hbl] at hok
    rw [Auth.blacklistToken] at hok
    cases hexp : Auth.getTokenExpiration t with
    | none =>
      rw [hexp] at hok
      exact absurd hok (by simp)
    | some expiration =>
      rw [hexp] at hok
      injection hok with hstore
      subst hstore
      have hbl' : Auth.isBlacklisted
          (store ++ [{ token := t.raw, userId := userId,
                       expiresAt := expiration }]) t.raw = true := by
        simp [Auth.isBlacklisted]
      refine ⟨hbl', ?_⟩
      rw [Auth.logout, if_pos hbl']

/-- Witness for C8: the demo token with an absent expiry claim is rejected
with 'Invalid token'; logging out the demo token from the empty blacklist
succeeds, leaves its record present, and a second logout of the same token
fails with 'Token is already invalidated'. -/
theorem C8_revoke_malformed_and_double_witness :
    Auth.blacklistToken [] Auth.demoMalformedToken "u1" =
      .error .invalidToken ∧
    (Auth.isBlacklisted
        [({ token := "tok", userId := "u1", expiresAt := 45000 } :
          Auth.BlacklistRecord)] Auth.demoToken.raw = true ∧
     Auth.logout
        [({ token := "tok", userId := "u1", expiresAt := 45000 } :
          Auth.BlacklistRecord)] Auth.demoToken "u2" =
       .error .tokenAlreadyInvalidated) :=
  ⟨C8_revoke_malformed_and_double.1 [] Auth.demoMalformedToken "u1" rfl,
   C8_revoke_malformed_and_double.2 []
     [({ token := "tok", userId := "u1", expiresAt := 45000 } :
       Auth.BlacklistRecord)] Auth.demoToken "u1" "u2" rfl⟩
